import Mathlib

/-!
Verification of the custom date-field widget (`src/src/App.tsx`).

The file contains two versions ("documents") of the component; the claims
concern the second document's `handleBlur`, `handleKeyDown`,
`handleClearClick`, the clear-button rendering condition, and the helper
`createInputValue` that appears verbatim in both documents.

The dayjs library is external, so it is abstracted as a structure
`DayjsApi` of the operations the component calls (`dayjs()`, `add`,
`subtract`, `isValid`, `isDayjs`, `format`, parsing, `year`).  The
handlers themselves are translated faithfully from the source; JavaScript
string operations (`trim`, `toLowerCase`, `substring(1)`, `split("/")`,
`padStart(2, "0")`, `parseInt(_, 10)`) and the three regular expressions
are given as executable Lean functions on the character lists of strings.
-/

/-- Abstraction of the dayjs operations used by the component.
`now` is `dayjs()`; `add d n u` is `d.add(n, u)`; `subtract d n u` is
`d.subtract(n, u)`; `parse s f` is `dayjs(s, f)`; `format d f` is
`d.format(f)`; `isDayjs` is `dayjs.isDayjs`; `year d` is `d.year()`. -/
structure DayjsApi (D : Type) where
  now : D
  add : D → Nat → String → D
  subtract : D → Nat → String → D
  isValid : D → Bool
  isDayjs : D → Bool
  format : D → String → String
  parse : String → String → D
  year : D → Int

/-- The component-local view state: the picker value
(`pickerContext.value`, `null` as `none`) and the text shown in the
input (`inputValue`). -/
structure FieldState (D : Type) where
  pickerValue : Option D
  inputValue : String
deriving DecidableEq, Repr

/-- JavaScript `String.prototype.trim`: drop leading and trailing
whitespace. -/
def jsTrim (s : String) : String :=
  String.mk (((s.data.dropWhile Char.isWhitespace).reverse.dropWhile
    Char.isWhitespace).reverse)

/-- JavaScript `String.prototype.toLowerCase` (ASCII fragment). -/
def jsToLower (s : String) : String :=
  String.mk (s.data.map Char.toLower)

/-- JavaScript `String.prototype.substring(1)`: drop the first
character. -/
def jsSubstring1 (s : String) : String :=
  String.mk s.data.tail

/-- JavaScript `parseInt(s, 10)` on a string of decimal digits. -/
def parseIntDec (s : String) : Nat :=
  s.data.foldl (fun a c => a * 10 + (c.toNat - 48)) 0

/-- JavaScript `String.prototype.padStart(2, "0")`. -/
def padStart2 (s : String) : String :=
  if 2 ≤ s.length then s
  else String.mk (List.replicate (2 - s.length) '0' ++ s.data)

/-- Split a character list at every `'/'` (JavaScript `split("/")`). -/
def splitSlashAux : List Char → List (List Char)
  | [] => [[]]
  | c :: rest =>
      let r := splitSlashAux rest
      if c = '/' then [] :: r
      else
        match r with
        | a :: t => (c :: a) :: t
        | [] => [[c]]

/-- JavaScript `s.split("/")`. -/
def splitSlash (s : String) : List String :=
  (splitSlashAux s.data).map String.mk

/-- The regular expression `/^d\d+$/` (and its `m`, `y` variants): the
given letter followed by one or more decimal digits. -/
def testLetterDigits (letter : Char) (s : String) : Bool :=
  match s.data with
  | c :: rest => c == letter && !rest.isEmpty && rest.all Char.isDigit
  | [] => false

/-- A `\d{1,2}` segment: one or two characters, all decimal digits. -/
def isDigitSeg (s : String) : Bool :=
  (s.length == 1 || s.length == 2) && s.data.all Char.isDigit

/-- The regular expression `/^\d{1,2}\/\d{1,2}$/`: one or two digits, a
slash, one or two digits. -/
def testShortDate (s : String) : Bool :=
  match splitSlash s with
  | [m, d] => isDigitSeg m && isDigitSeg d
  | _ => false

namespace Doc1

/-- `createInputValue` as defined in the first document (lines 155-160):
empty string for `null`, otherwise the formatted value when valid and
the empty string when invalid. -/
def createInputValue {D : Type} (api : DayjsApi D) (value : Option D)
    (fmt : String) : String :=
  match value with
  | none => ""
  | some v => if api.isValid v then api.format v fmt else ""

end Doc1

namespace Doc2

/-- `createInputValue` as defined in the second document (lines 521-527):
textually identical to the first document's version. -/
def createInputValue {D : Type} (api : DayjsApi D) (value : Option D)
    (fmt : String) : String :=
  match value with
  | none => ""
  | some v => if api.isValid v then api.format v fmt else ""

end Doc2

/-- `handleBlur` of the second document (lines 303-353).  `raw` is
`event.target.value`; `fieldFormat` is `pickerContext.fieldFormat`.
The forwarded `onBlur` call has no effect on the modelled state. -/
def handleBlur {D : Type} (api : DayjsApi D) (fieldFormat : String)
    (raw : String) (s : FieldState D) : FieldState D :=
  let currentInput := jsTrim raw
  let lower := jsToLower currentInput
  if lower = "d" then
    let today := api.now
    { pickerValue := some today,
      inputValue := Doc2.createInputValue api (some today) fieldFormat }
  else if testLetterDigits 'd' lower then
    let daysToAdd := parseIntDec (jsSubstring1 lower)
    let newDate := api.add api.now daysToAdd "day"
    { pickerValue := some newDate,
      inputValue := Doc2.createInputValue api (some newDate) fieldFormat }
  else if testLetterDigits 'm' lower then
    let monthsToAdd := parseIntDec (jsSubstring1 lower)
    let newDate := api.add api.now monthsToAdd "month"
    { pickerValue := some newDate,
      inputValue := Doc2.createInputValue api (some newDate) fieldFormat }
  else if testLetterDigits 'y' lower then
    let yearsToAdd := parseIntDec (jsSubstring1 lower)
    let newDate := api.add api.now yearsToAdd "year"
    { pickerValue := some newDate,
      inputValue := Doc2.createInputValue api (some newDate) fieldFormat }
  else if testShortDate currentInput then
    let parts := splitSlash currentInput
    let month := parts.headD ""
    let day := parts.tail.headD ""
    let currentYear := api.year api.now
    let newDate := api.parse
      (padStart2 month ++ "/" ++ padStart2 day ++ "/" ++ toString currentYear)
      "MM/DD/YYYY"
    if api.isValid newDate then
      { pickerValue := some newDate,
        inputValue := Doc2.createInputValue api (some newDate) fieldFormat }
    else s
  else
    { pickerValue := some (api.parse currentInput fieldFormat),
      inputValue := s.inputValue }

/-- `handleKeyDown` of the second document (lines 366-403).  `ctrl` is
`event.ctrlKey` and `key` is `event.key`; the guard
`event.ctrlKey && pickerContext.value && dayjs.isDayjs(pickerContext.value)`
becomes a match on the optional value plus the two boolean tests. -/
def handleKeyDown {D : Type} (api : DayjsApi D) (fieldFormat : String)
    (ctrl : Bool) (key : String) (s : FieldState D) : FieldState D :=
  match s.pickerValue with
  | some v =>
    if ctrl && api.isDayjs v then
      let newDate : Option D :=
        if key = "ArrowUp" then some (api.add v 1 "year")
        else if key = "ArrowDown" then some (api.subtract v 1 "year")
        else if key = "ArrowRight" then some (api.add v 1 "month")
        else if key = "ArrowLeft" then some (api.subtract v 1 "month")
        else none
      match newDate with
      | some nd =>
        { pickerValue := some nd,
          inputValue := Doc2.createInputValue api (some nd) fieldFormat }
      | none => s
    else s
  | none => s

/-- `handleClearClick` of the second document (lines 355-364): set the
picker value to `null`, clear the text, and invoke `onClear` when one
was supplied.  The boolean result records whether `onClear` was
invoked. -/
def handleClearClick {D : Type} (onClearProvided : Bool)
    (_s : FieldState D) : FieldState D × Bool :=
  ({ pickerValue := none, inputValue := "" }, onClearProvided)

/-- The rendering condition of the clear icon button inside
`customEndAdornment` (lines 406-418): `clearable && pickerContext.value`. -/
def clearButtonRendered {D : Type} (clearable : Bool)
    (s : FieldState D) : Bool :=
  clearable && s.pickerValue.isSome

/-- Modelled from the spec: the external `useValidation`/`validateDate`
hook of the picker library is not part of this repository; per the spec,
"invalid text input simply fails to parse into a valid date and is
surfaced via the library's built-in validation-error flag", so the flag
is set exactly when the stored value is an invalid date. -/
def hasValidationError {D : Type} (api : DayjsApi D)
    (value : Option D) : Bool :=
  match value with
  | none => false
  | some v => !api.isValid v

/-- The `error` prop passed to the rendered `TextField`
(line 475): it is exactly `hasValidationError` for the current picker
value. -/
def textFieldErrorProp {D : Type} (api : DayjsApi D)
    (s : FieldState D) : Bool :=
  hasValidationError api s.pickerValue

/-- A small concrete date type used to instantiate the abstract
`DayjsApi` on witnesses: a validity flag and a day counter. -/
structure ToyDate where
  valid : Bool
  days : Int
deriving DecidableEq, Repr

/-- A concrete `DayjsApi` instance over `ToyDate` used to evaluate the
handlers on concrete inputs.  Parsing accepts exactly the string
`"04/05/0"` (month/day/current-year for the toy `now`, whose year is 0)
and the string `"01/02/2024"`; everything else parses to an invalid
date. -/
def toyApi : DayjsApi ToyDate where
  now := { valid := true, days := 0 }
  add d n u :=
    { d with days := d.days + (if u = "year" then 366 * n
        else if u = "month" then 31 * n else n) }
  subtract d n u :=
    { d with days := d.days - (if u = "year" then 366 * n
        else if u = "month" then 31 * n else n) }
  isValid d := d.valid
  isDayjs _ := true
  format d fmt := fmt ++ ":" ++ toString d.days
  parse s _fmt :=
    if s = "04/05/0" then { valid := true, days := 95 }
    else if s = "01/02/2024" then { valid := true, days := 733 }
    else { valid := false, days := 0 }
  year d := d.days

/-! ### Character and string helper lemmas -/

theorem digit_toLower {c : Char} (h : c.isDigit = true) : c.toLower = c := by
  simp [Char.isDigit] at h
  have h2 : c.val.toNat ≤ 57 := UInt32.toNat_le_of_le (by decide) h.2
  simp [Char.toLower, Char.toNat]
  intro h65 _
  exfalso
  omega

theorem digit_beq_false {c l : Char} (hl : l.isDigit = false)
    (h : c.isDigit = true) : (c == l) = false := by
  cases hcl : c == l
  · rfl
  · rw [beq_iff_eq] at hcl
    subst hcl
    rw [h] at hl
    exact absurd hl (by simp)

theorem map_toLower_of_digits {cs : List Char}
    (h : cs.all Char.isDigit = true) : cs.map Char.toLower = cs := by
  induction cs with
  | nil => rfl
  | cons c rest ih =>
    rw [List.all_cons, Bool.and_eq_true] at h
    rw [List.map_cons, digit_toLower h.1, ih h.2]

theorem slash_not_mem_of_digits {cs : List Char}
    (h : cs.all Char.isDigit = true) : '/' ∉ cs := by
  intro hmem
  rw [List.all_eq_true] at h
  have := h _ hmem
  exact absurd this (by decide)

theorem splitSlashAux_no_slash (cs : List Char) (h : '/' ∉ cs) :
    splitSlashAux cs = [cs] := by
  induction cs with
  | nil => rfl
  | cons c rest ih =>
    simp only [List.mem_cons, not_or] at h
    rw [splitSlashAux]
    simp only [ih h.2]
    rw [if_neg (fun hc => h.1 hc.symm)]

theorem splitSlashAux_append (a b : List Char) (ha : '/' ∉ a)
    (hb : '/' ∉ b) : splitSlashAux (a ++ '/' :: b) = [a, b] := by
  induction a with
  | nil =>
    rw [List.nil_append, splitSlashAux]
    simp [splitSlashAux_no_slash b hb]
  | cons c rest ih =>
    simp only [List.mem_cons, not_or] at ha
    rw [List.cons_append, splitSlashAux]
    simp only [ih ha.2]
    rw [if_neg (fun hc => ha.1 hc.symm)]

theorem mk_eq_d_iff (cs : List Char) :
    (String.mk cs = "d") ↔ cs = ['d'] := by
  rw [String.ext_iff]

/-! ### Claim theorems -/

/-- Claim C1: on blur, when the trimmed lowercased input is exactly
`"d"`, the handler stores `dayjs()` as the picker value and renders it
into the input with the field format (given that `dayjs()` is a valid
date, which it always is for the real library). -/
theorem handleBlur_d_sets_today {D : Type} (api : DayjsApi D)
    (fieldFormat raw : String) (s : FieldState D)
    (hinput : jsToLower (jsTrim raw) = "d")
    (hvalid : api.isValid api.now = true) :
    handleBlur api fieldFormat raw s =
      { pickerValue := some api.now,
        inputValue := api.format api.now fieldFormat } := by
  simp [handleBlur, hinput, Doc2.createInputValue, hvalid]

/-- Witness for C1: blur on the raw text `" D "` (trimming and
lowercasing give `"d"`) over the concrete toy instance. -/
theorem handleBlur_d_sets_today_witness :
    handleBlur toyApi "MM/DD/YYYY" " D "
        { pickerValue := none, inputValue := " D " } =
      { pickerValue := some toyApi.now,
        inputValue := toyApi.format toyApi.now "MM/DD/YYYY" } :=
  handleBlur_d_sets_today toyApi "MM/DD/YYYY" " D " _ (by decide) (by decide)

/-- Claim C2: on blur, a trimmed lowercased input of the shape
`d<digits>` sets the picker value to `dayjs().add(n, "day")` where `n`
is the number the digits denote, and likewise `m<digits>` adds `n`
months and `y<digits>` adds `n` years; in each case the nudged date is
rendered into the input with the field format (given that the nudged
date is valid, which it always is for the real library). -/
theorem handleBlur_shorthand_add {D : Type} (api : DayjsApi D)
    (fieldFormat raw : String) (s : FieldState D) (ds : List Char) (n : Nat)
    (hds : ds ≠ []) (hdig : ds.all Char.isDigit = true)
    (hn : parseIntDec (String.mk ds) = n) :
    (jsToLower (jsTrim raw) = String.mk ('d' :: ds) →
      api.isValid (api.add api.now n "day") = true →
      handleBlur api fieldFormat raw s =
        { pickerValue := some (api.add api.now n "day"),
          inputValue := api.format (api.add api.now n "day") fieldFormat }) ∧
    (jsToLower (jsTrim raw) = String.mk ('m' :: ds) →
      api.isValid (api.add api.now n "month") = true →
      handleBlur api fieldFormat raw s =
        { pickerValue := some (api.add api.now n "month"),
          inputValue := api.format (api.add api.now n "month") fieldFormat }) ∧
    (jsToLower (jsTrim raw) = String.mk ('y' :: ds) →
      api.isValid (api.add api.now n "year") = true →
      handleBlur api fieldFormat raw s =
        { pickerValue := some (api.add api.now n "year"),
          inputValue := api.format (api.add api.now n "year") fieldFormat }) := by
  refine ⟨?_, ?_, ?_⟩
  · intro h hv
    have hne : String.mk ('d' :: ds) ≠ "d" := by
      intro hc
      rw [mk_eq_d_iff] at hc
      simp at hc
      exact hds hc
    have htest : testLetterDigits 'd' (String.mk ('d' :: ds)) = true := by
      simp [testLetterDigits, hdig, List.isEmpty_iff, hds]
    simp only [handleBlur, h]
    rw [if_neg hne, if_pos htest]
    simp [jsSubstring1, hn, Doc2.createInputValue, hv]
  · intro h hv
    have hne : String.mk ('m' :: ds) ≠ "d" := by
      intro hc
      rw [mk_eq_d_iff] at hc
      simp at hc
    have htd : testLetterDigits 'd' (String.mk ('m' :: ds)) = false := by
      simp [testLetterDigits]
    have htm : testLetterDigits 'm' (String.mk ('m' :: ds)) = true := by
      simp [testLetterDigits, hdig, List.isEmpty_iff, hds]
    simp only [handleBlur, h]
    rw [if_neg hne, if_neg (by rw [htd]; exact Bool.false_ne_true), if_pos htm]
    simp [jsSubstring1, hn, Doc2.createInputValue, hv]
  · intro h hv
    have hne : String.mk ('y' :: ds) ≠ "d" := by
      intro hc
      rw [mk_eq_d_iff] at hc
      simp at hc
    have htd : testLetterDigits 'd' (String.mk ('y' :: ds)) = false := by
      simp [testLetterDigits]
    have htm : testLetterDigits 'm' (String.mk ('y' :: ds)) = false := by
      simp [testLetterDigits]
    have hty : testLetterDigits 'y' (String.mk ('y' :: ds)) = true := by
      simp [testLetterDigits, hdig, List.isEmpty_iff, hds]
    simp only [handleBlur, h]
    rw [if_neg hne, if_neg (by rw [htd]; exact Bool.false_ne_true),
      if_neg (by rw [htm]; exact Bool.false_ne_true), if_pos hty]
    simp [jsSubstring1, hn, Doc2.createInputValue, hv]

/-- Witness for C2: blur on `"d3"`, `"m2"` and `"y10"` over the toy
instance, exercising all three conjuncts. -/
theorem handleBlur_shorthand_add_witness :
    (handleBlur toyApi "F" "d3" { pickerValue := none, inputValue := "d3" } =
      { pickerValue := some (toyApi.add toyApi.now 3 "day"),
        inputValue := toyApi.format (toyApi.add toyApi.now 3 "day") "F" }) ∧
    (handleBlur toyApi "F" "m2" { pickerValue := none, inputValue := "m2" } =
      { pickerValue := some (toyApi.add toyApi.now 2 "month"),
        inputValue := toyApi.format (toyApi.add toyApi.now 2 "month") "F" }) ∧
    (handleBlur toyApi "F" "y10" { pickerValue := none, inputValue := "y10" } =
      { pickerValue := some (toyApi.add toyApi.now 10 "year"),
        inputValue := toyApi.format (toyApi.add toyApi.now 10 "year") "F" }) :=
  ⟨(handleBlur_shorthand_add toyApi "F" "d3" _ ['3'] 3 (by decide) (by decide)
      (by decide)).1 (by decide) (by decide),
   (handleBlur_shorthand_add toyApi "F" "m2" _ ['2'] 2 (by decide) (by decide)
      (by decide)).2.1 (by decide) (by decide),
   (handleBlur_shorthand_add toyApi "F" "y10" _ ['1', '0'] 10 (by decide)
      (by decide) (by decide)).2.2 (by decide) (by decide)⟩

/-! ### Lemmas about the short-date shape `<m>/<d>` -/

theorem bool_ne_true {b : Bool} (h : b = false) : ¬ (b = true) := by
  simp [h]

theorem testLetterDigits_digit_head_false {l c : Char} (hl : l.isDigit = false)
    (hc : c.isDigit = true) (rest : List Char) :
    testLetterDigits l (String.mk (c :: rest)) = false := by
  simp [testLetterDigits, digit_beq_false hl hc]

theorem mk_ne_d_of_two_le {L : List Char} (h : 2 ≤ L.length) :
    String.mk L ≠ "d" := by
  intro hc
  rw [mk_eq_d_iff] at hc
  subst hc
  simp at h

theorem jsToLower_digits_slash {mcs dcs : List Char}
    (hmd : mcs.all Char.isDigit = true) (hdd : dcs.all Char.isDigit = true) :
    jsToLower (String.mk (mcs ++ '/' :: dcs)) =
      String.mk (mcs ++ '/' :: dcs) := by
  simp only [jsToLower]
  congr 1
  rw [List.map_append, map_toLower_of_digits hmd, List.map_cons,
    map_toLower_of_digits hdd, show Char.toLower '/' = '/' by decide]

theorem splitSlash_mk_append {mcs dcs : List Char}
    (hm : '/' ∉ mcs) (hd : '/' ∉ dcs) :
    splitSlash (String.mk (mcs ++ '/' :: dcs)) =
      [String.mk mcs, String.mk dcs] := by
  simp only [splitSlash]
  rw [splitSlashAux_append mcs dcs hm hd]
  rfl

theorem isDigitSeg_mk {cs : List Char} (h1 : cs ≠ []) (h2 : cs.length ≤ 2)
    (hd : cs.all Char.isDigit = true) : isDigitSeg (String.mk cs) = true := by
  have hlen : cs.length = 1 ∨ cs.length = 2 := by
    have := List.length_pos.mpr h1
    omega
  simp only [isDigitSeg]
  rw [hd]
  rcases hlen with h | h <;> simp [h]

theorem testShortDate_mk {mcs dcs : List Char}
    (hm1 : mcs ≠ []) (hm2 : mcs.length ≤ 2) (hmd : mcs.all Char.isDigit = true)
    (hd1 : dcs ≠ []) (hd2 : dcs.length ≤ 2) (hdd : dcs.all Char.isDigit = true) :
    testShortDate (String.mk (mcs ++ '/' :: dcs)) = true := by
  simp only [testShortDate]
  rw [splitSlash_mk_append (slash_not_mem_of_digits hmd)
    (slash_not_mem_of_digits hdd)]
  simp [isDigitSeg_mk hm1 hm2 hmd, isDigitSeg_mk hd1 hd2 hdd]

/-- Claim C3: on blur, a trimmed input of the shape `<m>/<d>` (one or
two digits on each side of a slash) is read as month/day: each side is
left-padded with `"0"` to two digits, the current year is appended, the
result is parsed with format `MM/DD/YYYY`, and when that date is valid
it becomes the picker value and is rendered into the input with the
field format. -/
theorem handleBlur_short_date {D : Type} (api : DayjsApi D)
    (fieldFormat raw : String) (s : FieldState D) (mcs dcs : List Char)
    (hm1 : mcs ≠ []) (hm2 : mcs.length ≤ 2) (hmd : mcs.all Char.isDigit = true)
    (hd1 : dcs ≠ []) (hd2 : dcs.length ≤ 2) (hdd : dcs.all Char.isDigit = true)
    (hinput : jsTrim raw = String.mk (mcs ++ '/' :: dcs))
    (hvalid : api.isValid (api.parse
      (padStart2 (String.mk mcs) ++ "/" ++ padStart2 (String.mk dcs) ++ "/" ++
        toString (api.year api.now)) "MM/DD/YYYY") = true) :
    handleBlur api fieldFormat raw s =
      { pickerValue := some (api.parse
          (padStart2 (String.mk mcs) ++ "/" ++ padStart2 (String.mk dcs) ++
            "/" ++ toString (api.year api.now)) "MM/DD/YYYY"),
        inputValue := api.format (api.parse
          (padStart2 (String.mk mcs) ++ "/" ++ padStart2 (String.mk dcs) ++
            "/" ++ toString (api.year api.now)) "MM/DD/YYYY") fieldFormat } := by
  obtain ⟨c, rest, rfl⟩ : ∃ c rest, mcs = c :: rest := by
    cases mcs with
    | nil => exact absurd rfl hm1
    | cons c rest => exact ⟨c, rest, rfl⟩
  simp only [List.cons_append] at hinput
  have hc : c.isDigit = true := by
    rw [List.all_cons, Bool.and_eq_true] at hmd
    exact hmd.1
  have hlow : jsToLower (String.mk (c :: (rest ++ '/' :: dcs))) =
      String.mk (c :: (rest ++ '/' :: dcs)) := jsToLower_digits_slash hmd hdd
  have hne : String.mk (c :: (rest ++ '/' :: dcs)) ≠ "d" :=
    mk_ne_d_of_two_le
      (by simp only [List.length_cons, List.length_append]; omega)
  have htd := @testLetterDigits_digit_head_false 'd' c (by decide) hc
    (rest ++ '/' :: dcs)
  have htm := @testLetterDigits_digit_head_false 'm' c (by decide) hc
    (rest ++ '/' :: dcs)
  have hty := @testLetterDigits_digit_head_false 'y' c (by decide) hc
    (rest ++ '/' :: dcs)
  have hshort : testShortDate (String.mk (c :: (rest ++ '/' :: dcs))) = true :=
    testShortDate_mk hm1 hm2 hmd hd1 hd2 hdd
  have hsplit : splitSlash (String.mk (c :: (rest ++ '/' :: dcs))) =
      [String.mk (c :: rest), String.mk dcs] :=
    splitSlash_mk_append (slash_not_mem_of_digits hmd)
      (slash_not_mem_of_digits hdd)
  simp only [handleBlur, hinput, hlow, hsplit]
  rw [if_neg hne, if_neg (bool_ne_true htd), if_neg (bool_ne_true htm),
    if_neg (bool_ne_true hty), if_pos hshort]
  simp [Doc2.createInputValue, hvalid]

/-- Witness for C3: blur on `"4/5"` over the toy instance, whose parser
accepts `"04/05/0"`. -/
theorem handleBlur_short_date_witness :
    handleBlur toyApi "F" "4/5" { pickerValue := none, inputValue := "4/5" } =
      { pickerValue := some (toyApi.parse
          (padStart2 (String.mk ['4']) ++ "/" ++ padStart2 (String.mk ['5']) ++
            "/" ++ toString (toyApi.year toyApi.now)) "MM/DD/YYYY"),
        inputValue := toyApi.format (toyApi.parse
          (padStart2 (String.mk ['4']) ++ "/" ++ padStart2 (String.mk ['5']) ++
            "/" ++ toString (toyApi.year toyApi.now)) "MM/DD/YYYY") "F" } :=
  handleBlur_short_date toyApi "F" "4/5" _ ['4'] ['5'] (by decide) (by decide)
    (by decide) (by decide) (by decide) (by decide) (by decide) (by decide)

/-- Claim C6: on blur, when the trimmed input has the short-date shape
`<m>/<d>` but the constructed month/day/current-year date is invalid,
the handler changes neither the picker value nor the input text. -/
theorem handleBlur_short_date_invalid {D : Type} (api : DayjsApi D)
    (fieldFormat raw : String) (s : FieldState D) (mcs dcs : List Char)
    (hm1 : mcs ≠ []) (hm2 : mcs.length ≤ 2) (hmd : mcs.all Char.isDigit = true)
    (hd1 : dcs ≠ []) (hd2 : dcs.length ≤ 2) (hdd : dcs.all Char.isDigit = true)
    (hinput : jsTrim raw = String.mk (mcs ++ '/' :: dcs))
    (hinvalid : api.isValid (api.parse
      (padStart2 (String.mk mcs) ++ "/" ++ padStart2 (String.mk dcs) ++ "/" ++
        toString (api.year api.now)) "MM/DD/YYYY") = false) :
    handleBlur api fieldFormat raw s = s := by
  obtain ⟨c, rest, rfl⟩ : ∃ c rest, mcs = c :: rest := by
    cases mcs with
    | nil => exact absurd rfl hm1
    | cons c rest => exact ⟨c, rest, rfl⟩
  simp only [List.cons_append] at hinput
  have hc : c.isDigit = true := by
    rw [List.all_cons, Bool.and_eq_true] at hmd
    exact hmd.1
  have hlow : jsToLower (String.mk (c :: (rest ++ '/' :: dcs))) =
      String.mk (c :: (rest ++ '/' :: dcs)) := jsToLower_digits_slash hmd hdd
  have hne : String.mk (c :: (rest ++ '/' :: dcs)) ≠ "d" :=
    mk_ne_d_of_two_le
      (by simp only [List.length_cons, List.length_append]; omega)
  have htd := @testLetterDigits_digit_head_false 'd' c (by decide) hc
    (rest ++ '/' :: dcs)
  have htm := @testLetterDigits_digit_head_false 'm' c (by decide) hc
    (rest ++ '/' :: dcs)
  have hty := @testLetterDigits_digit_head_false 'y' c (by decide) hc
    (rest ++ '/' :: dcs)
  have hshort : testShortDate (String.mk (c :: (rest ++ '/' :: dcs))) = true :=
    testShortDate_mk hm1 hm2 hmd hd1 hd2 hdd
  have hsplit : splitSlash (String.mk (c :: (rest ++ '/' :: dcs))) =
      [String.mk (c :: rest), String.mk dcs] :=
    splitSlash_mk_append (slash_not_mem_of_digits hmd)
      (slash_not_mem_of_digits hdd)
  simp only [handleBlur, hinput, hlow, hsplit]
  rw [if_neg hne, if_neg (bool_ne_true htd), if_neg (bool_ne_true htm),
    if_neg (bool_ne_true hty), if_pos hshort]
  simp [hinvalid]

/-- Witness for C6: blur on `"13/45"` over the toy instance, whose
parser rejects `"13/45/0"`; both components of the state are kept. -/
theorem handleBlur_short_date_invalid_witness :
    handleBlur toyApi "F" "13/45"
        { pickerValue := some { valid := true, days := 7 },
          inputValue := "13/45" } =
      { pickerValue := some { valid := true, days := 7 },
        inputValue := "13/45" } :=
  handleBlur_short_date_invalid toyApi "F" "13/45" _ ['1', '3'] ['4', '5']
    (by decide) (by decide) (by decide) (by decide) (by decide) (by decide)
    (by decide) (by decide)

/-- Claim C4 is corrected by this counterexample: on blur of the input
`"13/45"` (a short-date-shaped text whose constructed date is invalid),
the handler leaves the typed text in place, so the displayed text does
not equal the field-format rendering of the resulting picker value. -/
theorem handleBlur_reformat_counterexample :
    ¬ ((handleBlur toyApi "MM/DD/YYYY" "13/45"
          { pickerValue := none, inputValue := "13/45" }).inputValue =
        Doc2.createInputValue toyApi
          (handleBlur toyApi "MM/DD/YYYY" "13/45"
            { pickerValue := none, inputValue := "13/45" }).pickerValue
          "MM/DD/YYYY") := by
  decide

/-- Claim C4 as amended: after the blur handler runs, the displayed
input text either equals the field-format rendering of the resulting
picker value (this happens in the `"d"`, `d<n>`, `m<n>`, `y<n>` and
valid-short-date branches) or is left exactly as it was before the blur
(invalid short date, and the fall-through branch that parses with the
field format without touching the text). -/
theorem handleBlur_reformat_or_unchanged {D : Type} (api : DayjsApi D)
    (fieldFormat raw : String) (s : FieldState D) :
    (handleBlur api fieldFormat raw s).inputValue =
      Doc2.createInputValue api
        (handleBlur api fieldFormat raw s).pickerValue fieldFormat ∨
    (handleBlur api fieldFormat raw s).inputValue = s.inputValue := by
  simp only [handleBlur]
  split
  · exact Or.inl rfl
  split
  · exact Or.inl rfl
  split
  · exact Or.inl rfl
  split
  · exact Or.inl rfl
  split
  · split
    · exact Or.inl rfl
    · exact Or.inr rfl
  · exact Or.inr rfl

/-- Claim C5: on blur, input matching none of the shorthand patterns is
parsed with the field format and stored as the picker value even when
the parse fails, while the input text is left as typed; when the stored
value is invalid, the `error` prop of the text field (the library's
validation-error flag, modelled from the spec) is set. -/
theorem handleBlur_fallback_parse {D : Type} (api : DayjsApi D)
    (fieldFormat raw : String) (s : FieldState D)
    (h1 : jsToLower (jsTrim raw) ≠ "d")
    (h2 : testLetterDigits 'd' (jsToLower (jsTrim raw)) = false)
    (h3 : testLetterDigits 'm' (jsToLower (jsTrim raw)) = false)
    (h4 : testLetterDigits 'y' (jsToLower (jsTrim raw)) = false)
    (h5 : testShortDate (jsTrim raw) = false) :
    handleBlur api fieldFormat raw s =
      { pickerValue := some (api.parse (jsTrim raw) fieldFormat),
        inputValue := s.inputValue } ∧
    (api.isValid (api.parse (jsTrim raw) fieldFormat) = false →
      textFieldErrorProp api (handleBlur api fieldFormat raw s) = true) := by
  have hmain : handleBlur api fieldFormat raw s =
      { pickerValue := some (api.parse (jsTrim raw) fieldFormat),
        inputValue := s.inputValue } := by
    simp only [handleBlur]
    rw [if_neg h1, if_neg (bool_ne_true h2), if_neg (bool_ne_true h3),
      if_neg (bool_ne_true h4), if_neg (bool_ne_true h5)]
  refine ⟨hmain, fun hinv => ?_⟩
  rw [hmain]
  simp [textFieldErrorProp, hasValidationError, hinv]

/-- Witness for C5: blur on `"zzz"` over the toy instance; the parse is
invalid, the value is stored anyway, and the error prop is set. -/
theorem handleBlur_fallback_parse_witness :
    (handleBlur toyApi "F" "zzz" { pickerValue := none, inputValue := "zzz" } =
      { pickerValue := some (toyApi.parse (jsTrim "zzz") "F"),
        inputValue := "zzz" }) ∧
    textFieldErrorProp toyApi
      (handleBlur toyApi "F" "zzz"
        { pickerValue := none, inputValue := "zzz" }) = true :=
  ⟨(handleBlur_fallback_parse toyApi "F" "zzz" _ (by decide) (by decide)
      (by decide) (by decide) (by decide)).1,
   (handleBlur_fallback_parse toyApi "F" "zzz" _ (by decide) (by decide)
      (by decide) (by decide) (by decide)).2 (by decide)⟩

/-- Claim C7: when Ctrl is held and the picker value is a valid Dayjs
date, the key handler maps ArrowUp to plus one year, ArrowDown to minus
one year, ArrowRight to plus one month and ArrowLeft to minus one
month, storing the nudged date and rendering it into the input with the
field format. -/
theorem handleKeyDown_ctrl_arrows {D : Type} (api : DayjsApi D)
    (fieldFormat key : String) (s : FieldState D) (v : D)
    (hval : s.pickerValue = some v)
    (hdj : api.isDayjs v = true)
    (hv : api.isValid v = true) :
    (key = "ArrowUp" → handleKeyDown api fieldFormat true key s =
      { pickerValue := some (api.add v 1 "year"),
        inputValue := Doc2.createInputValue api
          (some (api.add v 1 "year")) fieldFormat }) ∧
    (key = "ArrowDown" → handleKeyDown api fieldFormat true key s =
      { pickerValue := some (api.subtract v 1 "year"),
        inputValue := Doc2.createInputValue api
          (some (api.subtract v 1 "year")) fieldFormat }) ∧
    (key = "ArrowRight" → handleKeyDown api fieldFormat true key s =
      { pickerValue := some (api.add v 1 "month"),
        inputValue := Doc2.createInputValue api
          (some (api.add v 1 "month")) fieldFormat }) ∧
    (key = "ArrowLeft" → handleKeyDown api fieldFormat true key s =
      { pickerValue := some (api.subtract v 1 "month"),
        inputValue := Doc2.createInputValue api
          (some (api.subtract v 1 "month")) fieldFormat }) := by
  refine ⟨fun hk => ?_, fun hk => ?_, fun hk => ?_, fun hk => ?_⟩ <;>
    subst hk <;> simp [handleKeyDown, hval, hdj]

/-- Witness for C7: the four Ctrl+arrow nudges on the toy instance from
a valid stored date. -/
theorem handleKeyDown_ctrl_arrows_witness :
    (handleKeyDown toyApi "F" true "ArrowUp"
        { pickerValue := some toyApi.now, inputValue := "x" } =
      { pickerValue := some (toyApi.add toyApi.now 1 "year"),
        inputValue := Doc2.createInputValue toyApi
          (some (toyApi.add toyApi.now 1 "year")) "F" }) ∧
    (handleKeyDown toyApi "F" true "ArrowDown"
        { pickerValue := some toyApi.now, inputValue := "x" } =
      { pickerValue := some (toyApi.subtract toyApi.now 1 "year"),
        inputValue := Doc2.createInputValue toyApi
          (some (toyApi.subtract toyApi.now 1 "year")) "F" }) ∧
    (handleKeyDown toyApi "F" true "ArrowRight"
        { pickerValue := some toyApi.now, inputValue := "x" } =
      { pickerValue := some (toyApi.add toyApi.now 1 "month"),
        inputValue := Doc2.createInputValue toyApi
          (some (toyApi.add toyApi.now 1 "month")) "F" }) ∧
    (handleKeyDown toyApi "F" true "ArrowLeft"
        { pickerValue := some toyApi.now, inputValue := "x" } =
      { pickerValue := some (toyApi.subtract toyApi.now 1 "month"),
        inputValue := Doc2.createInputValue toyApi
          (some (toyApi.subtract toyApi.now 1 "month")) "F" }) :=
  ⟨(handleKeyDown_ctrl_arrows toyApi "F" "ArrowUp" _ toyApi.now rfl rfl
      rfl).1 rfl,
   (handleKeyDown_ctrl_arrows toyApi "F" "ArrowDown" _ toyApi.now rfl rfl
      rfl).2.1 rfl,
   (handleKeyDown_ctrl_arrows toyApi "F" "ArrowRight" _ toyApi.now rfl rfl
      rfl).2.2.1 rfl,
   (handleKeyDown_ctrl_arrows toyApi "F" "ArrowLeft" _ toyApi.now rfl rfl
      rfl).2.2.2 rfl⟩

/-- Claim C8 is corrected by this counterexample: the key handler's
guard checks `dayjs.isDayjs` but not validity, so with Ctrl held and an
INVALID Dayjs value stored (the claim's "null or not a valid Dayjs
object" case) Ctrl+ArrowUp still rewrites the state: the input text
`"hello"` is replaced by the rendering of the nudged invalid date. -/
theorem handleKeyDown_frame_counterexample :
    toyApi.isValid { valid := false, days := 5 } = false ∧
    handleKeyDown toyApi "MM/DD/YYYY" true "ArrowUp"
        { pickerValue := some { valid := false, days := 5 },
          inputValue := "hello" } ≠
      { pickerValue := some { valid := false, days := 5 },
        inputValue := "hello" } := by
  decide

/-- Claim C8 as amended: the key handler leaves the picker value and
the input text unchanged whenever Ctrl is not held, or the picker value
is null, or it is not a Dayjs object (`dayjs.isDayjs` false — validity
is NOT checked), or the key is none of the four arrow keys. -/
theorem handleKeyDown_frame {D : Type} (api : DayjsApi D)
    (fieldFormat : String) (ctrl : Bool) (key : String) (s : FieldState D)
    (h : ctrl = false ∨ s.pickerValue = none ∨
      (∀ v : D, s.pickerValue = some v → api.isDayjs v = false) ∨
      (key ≠ "ArrowUp" ∧ key ≠ "ArrowDown" ∧ key ≠ "ArrowRight" ∧
        key ≠ "ArrowLeft")) :
    handleKeyDown api fieldFormat ctrl key s = s := by
  cases hpv : s.pickerValue with
  | none => simp [handleKeyDown, hpv]
  | some v =>
    rcases h with h | h | h | h
    · subst h
      simp [handleKeyDown, hpv]
    · rw [hpv] at h
      exact absurd h (by simp)
    · simp [handleKeyDown, hpv, h v hpv]
    · obtain ⟨k1, k2, k3, k4⟩ := h
      simp [handleKeyDown, hpv, k1, k2, k3, k4]

/-- Witness for C8 (amended): with Ctrl not held the handler is the
identity on a concrete state. -/
theorem handleKeyDown_frame_witness :
    handleKeyDown toyApi "F" false "ArrowUp"
        { pickerValue := some toyApi.now, inputValue := "x" } =
      { pickerValue := some toyApi.now, inputValue := "x" } :=
  handleKeyDown_frame toyApi "F" false "ArrowUp" _ (Or.inl rfl)

/-- Claim C9: activating the clear button sets the picker value to
null, sets the input text to the empty string, and invokes `onClear`
exactly when one was supplied; the clear button is rendered exactly
when the `clearable` prop is set and the picker value is non-null. -/
theorem handleClearClick_and_render {D : Type} (p c : Bool)
    (s : FieldState D) :
    (handleClearClick p s).1.pickerValue = none ∧
    (handleClearClick p s).1.inputValue = "" ∧
    ((handleClearClick p s).2 = true ↔ p = true) ∧
    (clearButtonRendered c s = true ↔ c = true ∧ s.pickerValue ≠ none) := by
  refine ⟨rfl, rfl, Iff.rfl, ?_⟩
  simp [clearButtonRendered, Option.isSome_iff_ne_none]

/-- Claim C10: the helper `createInputValue` is defined identically in
both documents of the file: the two versions agree on every input, and
both return the empty string for a null or invalid value and the
format-rendered value otherwise, so both render a given picker value to
the same input text. -/
theorem createInputValue_both_docs {D : Type} (api : DayjsApi D)
    (v : Option D) (fmt : String) :
    Doc1.createInputValue api v fmt = Doc2.createInputValue api v fmt ∧
    Doc1.createInputValue api none fmt = "" ∧
    (∀ d : D, api.isValid d = false →
      Doc1.createInputValue api (some d) fmt = "") ∧
    (∀ d : D, api.isValid d = true →
      Doc1.createInputValue api (some d) fmt = api.format d fmt) := by
  refine ⟨?_, rfl, fun d hd => ?_, fun d hd => ?_⟩
  · cases v with
    | none => rfl
    | some d => rfl
  · simp [Doc1.createInputValue, hd]
  · simp [Doc1.createInputValue, hd]

/-- Witness for C10: both versions agree on a concrete invalid toy date
and both render it to the empty string. -/
theorem createInputValue_both_docs_witness :
    Doc1.createInputValue toyApi (some { valid := false, days := 0 }) "F" =
      Doc2.createInputValue toyApi (some { valid := false, days := 0 }) "F" ∧
    Doc1.createInputValue toyApi (some { valid := false, days := 0 }) "F" =
      "" ∧
    Doc1.createInputValue toyApi (some toyApi.now) "F" =
      toyApi.format toyApi.now "F" :=
  ⟨(createInputValue_both_docs toyApi (some { valid := false, days := 0 })
      "F").1,
   (createInputValue_both_docs toyApi (some { valid := false, days := 0 })
      "F").2.2.1 _ rfl,
   (createInputValue_both_docs toyApi (some toyApi.now) "F").2.2.2 _ rfl⟩
